import Mathlib

/-!
Shallow embedding of `llm4crs/query/query_tool.py` (class `QueryTool`): the
SQL grounding rewriter `rewrite_sql`, the result-truncation pipeline and the
`run` orchestrator, together with the external collaborators they consume
(token counter, random sampler, item corpus, usage sink).  External
collaborators are parameters; repository helpers that are not under `src/`
(`cut_list`, `extract_columns_from_where`) are modelled from the spec and
marked as such in their doc comments.
-/

namespace QueryToolSpec

/-- A result record: an ordered mapping from field name to value, as produced
by `res.to_dict('records')`.  Values are modelled as already stringified, so
the code's `str(v)` is the identity and `json.dumps` renders every value as a
JSON string.  Keys are unique (the record is a Python dict). -/
abbrev Record := List (String × String)

/-- Python regex `\w` over ASCII input: letters, digits and underscore. -/
def isWordChar (c : Char) : Bool :=
  c.isAlpha || c.isDigit || c = '_'

/-- Python regex `\s` over ASCII input. -/
def isSpaceChar (c : Char) : Bool :=
  c = ' ' || c = '\t' || c = '\n' || c = '\r' || c = '\x0b' || c = '\x0c'

/-- The single-quote character. -/
def sqChar : Char := Char.ofNat 39

/-- The single-quote character as a string. -/
def sqStr : String := String.mk [sqChar]

/-- Python `s.split(" ")` on char lists: split at every occurrence of the
separator, keeping empty pieces; the split of `""` is `[""]`. -/
def splitOnChar (sep : Char) : List Char → List (List Char)
  | [] => [[]]
  | c :: cs =>
    match splitOnChar sep cs with
    | [] => [[]]
    | w :: ws => if c = sep then [] :: w :: ws else (c :: w) :: ws

/-- Python `sep.join(ws)` on char lists. -/
def joinChar (sep : Char) : List (List Char) → List Char
  | [] => []
  | w :: ws =>
    match ws with
    | [] => w
    | _ :: _ => w ++ sep :: joinChar sep ws

/-- Does `pat` occur at the head of `l`? -/
def startsWithChars : List Char → List Char → Bool
  | [], _ => true
  | _ :: _, [] => false
  | p :: ps, c :: cs => p = c && startsWithChars ps cs

/-- Python `s.replace(old, new)` for non-empty `old`: replace every
non-overlapping occurrence, scanning left to right, never rescanning the
replacement text.  Each step consumes at least one character, so fuel
`l.length + 1` set by `replaceList` is never exhausted. -/
def replaceListAux (pat rep : List Char) : Nat → List Char → List Char
  | 0, l => l
  | _, [] => []
  | fuel + 1, c :: cs =>
    if !pat.isEmpty && startsWithChars pat (c :: cs) then
      rep ++ replaceListAux pat rep fuel ((c :: cs).drop pat.length)
    else
      c :: replaceListAux pat rep fuel cs

/-- Python `s.replace(old, new)` on char lists: see `replaceListAux`. -/
def replaceList (pat rep l : List Char) : List Char :=
  replaceListAux pat rep (l.length + 1) l

/-- Python `s.replace(old, new)` on strings. -/
def strReplace (s pat rep : String) : String :=
  String.mk (replaceList pat.data rep.data s.data)

/-- Lowercase hexadecimal digit. -/
def hexDigit (n : Nat) : Char :=
  if n < 10 then Char.ofNat (48 + n) else Char.ofNat (87 + n)

/-- Four lowercase hexadecimal digits. -/
def hex4 (n : Nat) : List Char :=
  [hexDigit (n / 4096 % 16), hexDigit (n / 256 % 16), hexDigit (n / 16 % 16), hexDigit (n % 16)]

/-- Escaping of one character by Python `json.dumps` (default
`ensure_ascii=True`): quote and backslash get a backslash escape, common
control characters get their short escapes, every other character outside
printable ASCII `0x20`-`0x7e` becomes `\uXXXX` (a surrogate pair above the
basic multilingual plane). -/
def escChar (c : Char) : List Char :=
  if c = '"' then ['\\', '"']
  else if c = '\\' then ['\\', '\\']
  else if c = '\n' then ['\\', 'n']
  else if c = '\t' then ['\\', 't']
  else if c = '\r' then ['\\', 'r']
  else if c = '\x08' then ['\\', 'b']
  else if c = '\x0c' then ['\\', 'f']
  else if 32 ≤ c.toNat && c.toNat ≤ 126 then [c]
  else if c.toNat < 65536 then '\\' :: 'u' :: hex4 c.toNat
  else
    let v := c.toNat - 65536
    ('\\' :: 'u' :: hex4 (55296 + v / 1024)) ++ ('\\' :: 'u' :: hex4 (56320 + v % 1024))

/-- JSON escaping of a whole string. -/
def jsonEscape (s : String) : String :=
  String.mk (s.data.foldr (fun c acc => escChar c ++ acc) [])

/-- Python `json.dumps` of one string-valued field: `"key": "value"`. -/
def dumpField (f : String × String) : String :=
  "\"" ++ jsonEscape f.1 ++ "\": \"" ++ jsonEscape f.2 ++ "\""

/-- Python `json.dumps` of one record (a dict, in insertion order). -/
def dumpRecord (r : Record) : String :=
  "\x7b" ++ String.intercalate ", " (r.map dumpField) ++ "\x7d"

/-- Python `json.dumps` of a record list. -/
def dumpRecords (l : List Record) : String :=
  "[" ++ String.intercalate ", " (l.map dumpRecord) ++ "]"

/-- Per-field word cutting, `query_tool.py` lines 80-93.  `cutOff` is this
field's `cut_off_token[k] = overflow_token * key2token[k] // all_token` and
`keyTok` is `key2token[k]`.  Nat subtraction and division agree with the
Python expressions on every path the code reaches: `len(words) - 3` is only
used where Python's value is positive (both cut branches also require
`len(words) > 5`, and a negative Python value makes `cut_word_cnt >= 1` false
exactly as truncated subtraction does), and `keyTok = 0` (Python
`ZeroDivisionError`) is excluded by `shrinkPass` before `cutField` runs.
Returns the new field text and the value this field leaves in `_cut_last`. -/
def cutField (cutOff keyTok : Nat) (v : String) : String × Bool :=
  let ws := splitOnChar ' ' v.data
  let cutWordCnt := min (ws.length * cutOff / keyTok) (ws.length - 3)
  if 1 ≤ cutWordCnt ∧ 10 < ws.length then
    (String.mk (joinChar ' ' (ws.take (ws.length - cutWordCnt)) ++ ['.', '.', '.']), true)
  else if 1 ≤ cutWordCnt ∧ 5 < ws.length then
    (String.mk (joinChar ' ' ws.dropLast ++ ['.', '.', '.']), true)
  else
    (String.mk (joinChar ' ' ws), false)

/-- One pass of the per-record shrink loop, lines 71-93.  Python raises
`ZeroDivisionError` exactly when some field's token count is `0` (through
`all_token` for a nonempty all-zero record, or through `key2token[k]`);
that is modelled as `none`.  On success, returns the record after the pass
together with the final value of `_cut_last`: the value left by the **last**
field of the record, or the incoming `True` when the record has no fields. -/
def shrinkPass (tok : String → Nat) (overflow : Nat) (r : Record) : Option (Record × Bool) :=
  if r.any (fun f => tok f.2 == 0) then none
  else
    let allToken := (r.map (fun f => tok f.2)).sum
    let results := r.map (fun f =>
      let keyTok := tok f.2
      let p := cutField (overflow * keyTok / allToken) keyTok f.2
      ((f.1, p.1), p.2))
    some (results.map Prod.fst, results.foldl (fun _ p => p.2) true)

/-- Outcome of the per-record `while` loop, lines 70-94: the shrunk record, a
Python exception, or a loop that has not finished within the given number of
passes. -/
inductive ShrinkRes where
  | ok (r : Record)
  | exc
  | spin
deriving DecidableEq

/-- The per-record fixed-point loop, lines 64-94.  `limit` is
`token_limit_per_record`; the guard is `overflow_token > 0 and _cut_last`
with `_cut_last` initially `True` (as a Nat, `overflow = 0` is exactly
`tok (dumpRecord r) ≤ limit`).  `fuel` bounds the number of passes; a
genuine Python infinite loop shows as `spin` for every fuel. -/
def shrinkLoop (tok : String → Nat) (limit : Nat) : Nat → Record → ShrinkRes
  | 0, r => if tok (dumpRecord r) ≤ limit then .ok r else .spin
  | fuel + 1, r =>
    if tok (dumpRecord r) - limit = 0 then .ok r
    else
      match shrinkPass tok (tok (dumpRecord r) - limit) r with
      | none => .exc
      | some (r', cutLast) => if cutLast then shrinkLoop tok limit fuel r' else .ok r'

/-- Outcome of shrinking every record (the `for i, record in enumerate(res)`
loop, lines 63-95): Python processes records in order and aborts the whole
`try` block at the first exception. -/
inductive ShrinkAllRes where
  | ok (l : List Record)
  | exc
  | spin
deriving DecidableEq

/-- Shrink every record of the list with the same per-record token limit. -/
def shrinkAll (tok : String → Nat) (limit fuel : Nat) : List Record → ShrinkAllRes
  | [] => .ok []
  | r :: rs =>
    match shrinkLoop tok limit fuel r with
    | .exc => .exc
    | .spin => .spin
    | .ok r' =>
      match shrinkAll tok limit fuel rs with
      | .ok rs' => .ok (r' :: rs')
      | e => e

/-- Modelled from the spec: `cut_list` (from `llm4crs.utils`, code of this
repository that is not under `src/`) — "apply one last unconditional
truncation of the serialized payload to a length implied by the budget (a
lossy but bounded emergency fallback, never unbounded)".  Modelled as
dropping trailing records until the serialized list fits the budget,
possibly dropping everything.  The fuel is set to the list length by
`cutList`, which makes the recursion total without changing the outcome. -/
def cutListAux (tok : String → Nat) (budget : Nat) : Nat → List Record → List Record
  | 0, l => l
  | fuel + 1, l =>
    if tok (dumpRecords l) ≤ budget then l else cutListAux tok budget fuel l.dropLast

/-- Modelled from the spec: see `cutListAux`. -/
def cutList (tok : String → Nat) (budget : Nat) (l : List Record) : List Record :=
  cutListAux tok budget l.length l

/-- Record-count cap, lines 54-56: when there are more records than
`_max_record_num`, replace them by `random.sample(res, k=m)` — the ambient
`sampler` — and set `_any_cut`; otherwise leave the list unchanged. -/
def sampleStep (sampler : List Record → Nat → List Record) (m : Nat) (res : List Record) :
    List Record × Bool :=
  if res.length > m then (sampler res m, true) else (res, false)

/-- Parse a literal case-insensitively (the pattern is given lowercase),
returning the rest of the input; lookahead only. -/
def parseLitCI : List Char → List Char → Option (List Char)
  | [], l => some l
  | _ :: _, [] => none
  | p :: ps, c :: cs => if c.toLower = p then parseLitCI ps cs else none

/-- Maximal run of characters satisfying `p`, with the rest of the input. -/
def takeRun (p : Char → Bool) : List Char → List Char × List Char
  | [] => ([], [])
  | c :: cs => if p c then let r := takeRun p cs; (c :: r.1, r.2) else ([], c :: cs)

/-- Match of the regex `\bFROM\s+(\w+)\s+WHERE` (with `re.IGNORECASE`) at the
head of the input, the word boundary before `FROM` being checked by the
caller.  Greedy matching of the char classes is exact here because the
classes `\w` and `\s` are disjoint and the literals start with neither.
Returns the input after the match. -/
def matchFW (l : List Char) : Option (List Char) :=
  match parseLitCI (("from").data) l with
  | none => none
  | some l1 =>
    let s1 := takeRun isSpaceChar l1
    if s1.1 = [] then none
    else
      let w := takeRun isWordChar s1.2
      if w.1 = [] then none
      else
        let s2 := takeRun isSpaceChar w.2
        if s2.1 = [] then none else parseLitCI (("where").data) s2.2

/-- Scanner for `re.sub(r'\bFROM\s+(\w+)\s+WHERE', f'FROM {name} WHERE', sql,
flags=re.IGNORECASE)` (line 129): replace every non-overlapping match, left
to right, tracking whether the previous character was a word character (the
`\b` check; `FROM` starts with a word character, so a match can only start
after a non-word character or at the start).  Each step consumes at least one
character, so fuel `l.length + 1` set by `applyFromSub` is never exhausted. -/
def subFWAux (name : List Char) : Nat → Bool → List Char → List Char
  | 0, _, l => l
  | _, _, [] => []
  | fuel + 1, prevW, c :: cs =>
    if prevW then c :: subFWAux name fuel (isWordChar c) cs
    else
      match matchFW (c :: cs) with
      | some rest => (("FROM ").data ++ name ++ (" WHERE").data) ++ subFWAux name fuel true rest
      | none => c :: subFWAux name fuel (isWordChar c) cs

/-- The FROM-target normalization of line 129 on strings. -/
def applyFromSub (name : String) (sql : String) : String :=
  String.mk (subFWAux name.data (sql.data.length + 1) false sql.data)

/-- Modelled from the spec: comparison operators that may follow a column
identifier in a WHERE-clause predicate ("boolean-combined comparisons"). -/
def opFollows (l : List Char) : Bool :=
  startsWithChars (("=").data) l || startsWithChars (("<").data) l ||
  startsWithChars ((">").data) l || startsWithChars (("!").data) l ||
  startsWithChars (("LIKE").data) l || startsWithChars (("NOT ").data) l ||
  startsWithChars (("IN ").data) l || startsWithChars (("IS ").data) l

/-- Try to recognise the keyword `WHERE` (case-insensitively, at a word
boundary on both sides) at the head of the input; lookahead only. -/
def tryWhereAt (prevW : Bool) (l : List Char) : Option (List Char) :=
  if prevW then none
  else
    match parseLitCI (("where").data) l with
    | none => none
    | some rest =>
      match rest with
      | [] => some []
      | d :: _ => if isWordChar d then none else some rest

/-- Everything after the first `WHERE` keyword, if any. -/
def findAfterWhere : Bool → List Char → Option (List Char)
  | _, [] => none
  | prevW, c :: cs =>
    match tryWhereAt prevW (c :: cs) with
    | some rest => some rest
    | none => findAfterWhere (isWordChar c) cs

/-- Modelled from the spec: collect, in order, every identifier of the
WHERE clause that is directly followed (modulo spaces) by a comparison
operator.  Each step consumes at least one character, so fuel
`l.length + 1` is never exhausted. -/
def collectCols : Nat → Bool → List Char → List String
  | 0, _, _ => []
  | _, _, [] => []
  | fuel + 1, prevW, c :: cs =>
    if prevW || !isWordChar c then collectCols fuel (isWordChar c) cs
    else
      let w := takeRun isWordChar (c :: cs)
      let r2 := (takeRun isSpaceChar w.2).2
      if opFollows r2 then String.mk w.1 :: collectCols fuel true w.2
      else collectCols fuel true w.2

/-- Modelled from the spec: `extract_columns_from_where` (from
`llm4crs.utils.sql`, code of this repository that is not under `src/`) —
"Extract every column identifier referenced in WHERE-clause predicates
(boolean-combined comparisons)". -/
def extract_columns_from_where (sql : String) : List String :=
  match findAfterWhere false sql.data with
  | none => []
  | some rest => collectCols (rest.length + 1) false rest

/-- The literal `LIKE '%` of the value-grounding pattern (line 143). -/
def likeLit : List Char := 'L' :: 'I' :: 'K' :: 'E' :: ' ' :: sqChar :: '%' :: []

/-- Parse `LIKE '\%([^\%]+)\%'` at the head of the input, returning the
captured value and the rest after the match.  The greedy `[^\%]+` is exact:
it must stop at a `%` and no backtracking can recover from a failure. -/
def likeTail (l : List Char) : Option (String × List Char) :=
  if startsWithChars likeLit l then
    let r3 := l.drop likeLit.length
    let v := takeRun (fun c => c != '%') r3
    if v.1 = [] then none
    else
      match v.2 with
      | p :: q :: rest => if p = '%' ∧ q = sqChar then some (String.mk v.1, rest) else none
      | _ => none
  else none

/-- Match of `([a-zA-Z0-9_]+) (?:NOT )?LIKE '\%([^\%]+)\%'` at the head of
the input (groups and rest-after-match).  The optional `NOT ` is tried
consumed first, exactly as the regex engine backtracks. -/
def likeMatchAt (l : List Char) : Option (String × String × List Char) :=
  let w := takeRun isWordChar l
  if w.1 = [] then none
  else
    match w.2 with
    | ' ' :: r2 =>
      let withNot := if startsWithChars (("NOT ").data) r2 then likeTail (r2.drop 4) else none
      match withNot with
      | some (v, rest) => some (String.mk w.1, v, rest)
      | none =>
        match likeTail r2 with
        | some (v, rest) => some (String.mk w.1, v, rest)
        | none => none
    | _ => none

/-- Scanner for `re.findall(pattern, sql)` (line 144): leftmost,
non-overlapping matches; on failure advance one character.  Each step
consumes at least one character, so fuel `l.length + 1` set by
`findLikePatterns` is never exhausted. -/
def findLikeAux : Nat → List Char → List (String × String)
  | 0, _ => []
  | _, [] => []
  | fuel + 1, c :: cs =>
    match likeMatchAt (c :: cs) with
    | some (col, v, rest) => (col, v) :: findLikeAux fuel rest
    | none => findLikeAux fuel cs

/-- All `(column, value)` pairs of pattern-match predicates in the query. -/
def findLikePatterns (s : String) : List (String × String) :=
  findLikeAux (s.data.length + 1) s.data

/-- Insertion into a Python dict modelled as an ordered association list:
a new key is appended, an existing key keeps its position and gets the new
value. -/
def dictInsert (d : List (String × String)) (k v : String) : List (String × String) :=
  if d.any (fun p => p.1 == k) then d.map (fun p => if p.1 = k then (k, v) else p)
  else d ++ [(k, v)]

/-- Apply a substitution dict in iteration order: `sql = sql.replace(k, v)`
for each entry (lines 139-140 and 153-154). -/
def applyReplaces (d : List (String × String)) (s : String) : String :=
  d.foldl (fun acc p => strReplace acc p.1 p.2) s

/-- Column grounding, lines 134-138: for every extracted column not among the
known columns, `fuzzy_match(col, 'sql_cols')`; a raised exception (`none`)
aborts the whole rewrite. -/
def buildColDict (fuzzy : String → String → Option String) (existing : List String) :
    List String → List (String × String) → Option (List (String × String))
  | [], d => some d
  | c :: cs, d =>
    if existing.contains c then buildColDict fuzzy existing cs d
    else
      match fuzzy c ("sql_cols") with
      | none => none
      | some mc => buildColDict fuzzy existing cs (dictInsert d c mc)

/-- Value grounding, lines 145-151: for every `(col, value)` pattern pair
whose column is in the fuzzy engine, `fuzzy_match(value, col)`, with single
quotes doubled for sqlite; keys and values are wrapped in `%`. -/
def buildValDict (fuzzy : String → String → Option String) (engine : List String) :
    List (String × String) → List (String × String) → Option (List (String × String))
  | [], d => some d
  | p :: ps, d =>
    if engine.contains p.1 then
      match fuzzy p.2 p.1 with
      | none => none
      | some rv =>
        let rv' := strReplace rv sqStr (sqStr ++ sqStr)
        buildValDict fuzzy engine ps (dictInsert d ("%" ++ p.2 ++ "%") ("%" ++ rv' ++ "%"))
    else buildValDict fuzzy engine ps d

/-- The item corpus (`BaseGallery`), reduced to the five operations the tool
consumes: canonical `name`, the keys of `column_meaning`, the keys of
`categorical_col_values`, the keys of `fuzzy_engine`, `fuzzy_match` (which
may raise: `none`) and query execution (which may raise: `none`). -/
structure Corpus where
  name : String
  columnMeaningKeys : List String
  categoricalKeys : List String
  fuzzyEngineKeys : List String
  fuzzyMatch : String → String → Option String
  execQuery : String → Option (List Record)

/-- `QueryTool.rewrite_sql`, lines 122-156: FROM-target normalization, then
column grounding applied to the query, then categorical-value grounding
applied to the result.  `none` models an exception escaping `rewrite_sql`. -/
def rewrite_sql (corpus : Corpus) (sql : String) : Option String :=
  let s1 := applyFromSub corpus.name sql
  match buildColDict corpus.fuzzyMatch corpus.columnMeaningKeys
      (extract_columns_from_where s1) [] with
  | none => none
  | some d =>
    let s2 := applyReplaces d s1
    match buildValDict corpus.fuzzyMatch corpus.fuzzyEngineKeys (findLikePatterns s2) [] with
    | none => none
    | some d2 => some (applyReplaces d2 s2)

/-- Constructor state of `QueryTool.__init__` (lines 22-28); the usage
buffer is effect-only and elided.  Note there is no random source and no
token counter here: both are ambient module-level imports in the code. -/
structure QueryToolCfg where
  name : String
  desc : String
  corpus : Corpus
  resultMaxToken : Nat

/-- `self._max_record_num = self.result_max_token // 5` (line 28). -/
def QueryToolCfg.maxRecordNum (cfg : QueryToolCfg) : Nat := cfg.resultMaxToken / 5

/-- Outcome of the big `try` block of `run` (lines 45-110): the value the
code leaves in `output`, a caught exception, or divergence inside the shrink
loop.  The Bool is a ghost flag recording whether the emergency `cut_list`
fallback of line 103 ran; the code does not return it. -/
inductive PhaseRes where
  | ok (out : String) (emergency : Bool)
  | exc
  | spin
deriving DecidableEq

/-- Lines 59-108 of `run`, after sampling: if the serialized record list
exceeds `result_max_token`, shrink each record with per-record limit
`result_max_token // (len(res) + 1)` (line 60), then re-check and fall back
to `cut_list` (lines 102-103); `output` is the serialized record list of
whichever branch ran (lines 105 and 108). -/
def truncAfterSample (cfg : QueryToolCfg) (tok : String → Nat) (fuel : Nat)
    (res1 : List Record) : PhaseRes :=
  if tok (dumpRecords res1) > cfg.resultMaxToken then
    match shrinkAll tok (cfg.resultMaxToken / (res1.length + 1)) fuel res1 with
    | .exc => .exc
    | .spin => .spin
    | .ok cutRes =>
      if tok (dumpRecords cutRes) > cfg.resultMaxToken then
        .ok (dumpRecords (cutList tok cfg.resultMaxToken cutRes)) true
      else .ok (dumpRecords cutRes) false
  else .ok (dumpRecords res1) false

/-- Lines 45-108 of `run`: execute the rewritten query (`none` models a
raised `ExecutionError`), cap the record count, then truncate and
serialize. -/
def execPhase (cfg : QueryToolCfg) (tok : String → Nat)
    (sampler : List Record → Nat → List Record) (fuel : Nat) (q : String) : PhaseRes :=
  match cfg.corpus.execQuery q with
  | none => .exc
  | some res => truncAfterSample cfg tok fuel ((sampleStep sampler cfg.maxRecordNum res).1)

/-- The text appended to `info` at lines 42 and 114 (after the tool name). -/
def brokenMsg : String := ": some thing went wrong in execution, the tool is broken for current input. \n"

/-- The initial value of `output` (line 36), returned whenever the `try`
block of lines 45-110 raises before assigning `output`. -/
def placeholderMsg : String := "can not seach related information."

/-- The sampling notice appended to `info` at line 99 (only inside the
over-budget branch, and only when `_any_cut` is set). -/
def samplingNotice (name : String) : String :=
  name ++ ": The search result is too long, some are omitted. \n"

/-- `QueryTool.run`, lines 31-120.  The function returns `output`: on a
rewrite failure it returns `info` (which then holds exactly the tool name
followed by `brokenMsg`); on an exception inside the big `try` block it
returns the still-unassigned placeholder; otherwise it returns the
serialized record list.  The diagnostics accumulated in `info` (rewrite
notice of line 40, sampling notice of line 99, the search-result line 110)
are logged, not returned.  `none` models divergence of the shrink loop. -/
def run (cfg : QueryToolCfg) (tok : String → Nat)
    (sampler : List Record → Nat → List Record) (fuel : Nat) (q : String) : Option String :=
  match rewrite_sql cfg.corpus q with
  | none => some (cfg.name ++ brokenMsg)
  | some q' =>
    match execPhase cfg tok sampler fuel q' with
    | .exc => some placeholderMsg
    | .spin => none
    | .ok out _ => some out

/-- Modelled from the spec: the composed output claim C2 asserts for a run
where grounding did not occur and sampling did — "a diagnostic prefix
(... sampling notice if `was_sampled`) with the serialized payload". -/
def claimedComposedOutput (name : String) (payload : String) : String :=
  samplingNotice name ++ payload

/-- A heap of records, for the store-passing model of the shrink phase. -/
def Heap := Nat → Record

/-- Pointwise heap update. -/
def hupdate (h : Heap) (i : Nat) (r : Record) : Heap :=
  fun j => if j = i then r else h j

/-- Store-passing model of the shrink phase (lines 63-95): the input records
live in heap cells `ids`; for each one, `res_record = deepcopy(record)`
allocates a fresh cell (`next`, `next + 1`, ...) and the loop mutates only
that fresh copy (modelled by writing the loop's final value into it);
`cut_res` collects the fresh cells.  Any exception or divergence is `none`. -/
def shrinkAllStore (tok : String → Nat) (limit fuel : Nat) (h : Heap) (next : Nat) :
    List Nat → Option (Heap × Nat × List Nat)
  | [] => some (h, next, [])
  | i :: is =>
    match shrinkLoop tok limit fuel (h i) with
    | .ok r' =>
      match shrinkAllStore tok limit fuel (hupdate h next r') (next + 1) is with
      | some (h', n', outs) => some (h', n', next :: outs)
      | none => none
    | _ => none

/-! Concrete instances used by witnesses and counterexamples. -/

/-- A record with a long first field (12 one-letter words) and a short
last field. -/
def rEx : Record := [("a", "w w w w w w w w w w w w"), ("b", "x")]

/-- `rEx` after one shrink pass with overflow 24 under the length counter:
the first field is cut from 12 words to 3, the last field is untouched. -/
def rEx' : Record := [("a", "w w w..."), ("b", "x")]

/-- A sampler that keeps the first `k` records (a legal outcome of
`random.sample`). -/
def takeSampler : List Record → Nat → List Record := fun l k => l.take k

/-- A sampler that keeps the last `k` records (another legal outcome of
`random.sample`). -/
def dropSampler : List Record → Nat → List Record := fun l k => l.drop (l.length - k)

/-- A token counter that charges one token per character. -/
def tokLen : String → Nat := String.length

/-- A token counter that charges one token for any string. -/
def tokOne : String → Nat := fun _ => 1

/-- A corpus whose fuzzy matcher and query execution always raise. -/
def corpusFail : Corpus :=
  { name := "g", columnMeaningKeys := [], categoricalKeys := [], fuzzyEngineKeys := [],
    fuzzyMatch := fun _ _ => none, execQuery := fun _ => none }

/-- Tool configured over `corpusFail`. -/
def cfgFail : QueryToolCfg :=
  { name := "Q", desc := "d", corpus := corpusFail, resultMaxToken := 512 }

/-- A query with a WHERE clause referencing the unknown column `c`. -/
def queryW : String := "SELECT * FROM t WHERE c = 1"

/-- A query without a WHERE clause (left unchanged by the rewriter). -/
def queryNoW : String := "SELECT * FROM t"

/-- Three one-field records. -/
def resEx3 : List Record := [[("i", "1")], [("i", "2")], [("i", "3")]]

/-- A corpus that returns `resEx3` for `queryNoW` and raises otherwise. -/
def corpusEx3 : Corpus :=
  { name := "g", columnMeaningKeys := [], categoricalKeys := [], fuzzyEngineKeys := [],
    fuzzyMatch := fun _ _ => none,
    execQuery := fun q => if q = queryNoW then some resEx3 else none }

/-- Tool over `corpusEx3` with budget 10, hence record cap `10 / 5 = 2`. -/
def cfgEx3 : QueryToolCfg :=
  { name := "Q", desc := "d", corpus := corpusEx3, resultMaxToken := 10 }

/-- Tool over `corpusEx3` with the default budget 512 (record cap 102). -/
def cfgBig : QueryToolCfg :=
  { name := "Q", desc := "d", corpus := corpusEx3, resultMaxToken := 512 }

/-- The fuzzy matcher of the C8 scenario: `colr` resolves to the column
`color`, `cofee` resolves to the categorical value `coffee`. -/
def fuzzyEx : String → String → Option String := fun t d =>
  if t = "colr" && d = "sql_cols" then some ("color")
  else if t = "cofee" && d = "color" then some ("coffee") else none

/-- The corpus of the C8 scenario: canonical name `items`, known column
`color` with a categorical domain. -/
def corpusEx8 : Corpus :=
  { name := "items", columnMeaningKeys := ["color"], categoricalKeys := ["color"],
    fuzzyEngineKeys := ["color"], fuzzyMatch := fuzzyEx, execQuery := fun _ => none }

/-- The C8 scenario query. -/
def query8 : String :=
  "SELECT * FROM unknown_table WHERE colr LIKE " ++ sqStr ++ "%cofee%" ++ sqStr

/-- The C8 scenario expected rewrite. -/
def target8 : String :=
  "SELECT * FROM items WHERE color LIKE " ++ sqStr ++ "%coffee%" ++ sqStr

/-- The C8 scenario query after FROM-target normalization. -/
def query8b : String :=
  "SELECT * FROM items WHERE colr LIKE " ++ sqStr ++ "%cofee%" ++ sqStr

/-- The C8 scenario query after column grounding. -/
def query8c : String :=
  "SELECT * FROM items WHERE color LIKE " ++ sqStr ++ "%cofee%" ++ sqStr

/-- A heap holding the same one-field record everywhere. -/
def heapEx : Heap := fun _ => [("a", "b")]

/-! Helper lemmas. -/

lemma data_append (s t : String) : (s ++ t).data = s.data ++ t.data := by
  cases s; cases t; rfl

lemma mk_data (s : String) : String.mk s.data = s := by
  cases s; rfl

lemma splitOnChar_ne_nil (sep : Char) (l : List Char) : splitOnChar sep l ≠ [] := by
  cases l with
  | nil => simp [splitOnChar]
  | cons c cs =>
    simp only [splitOnChar]
    cases h : splitOnChar sep cs with
    | nil => simp
    | cons w ws =>
      by_cases hc : c = sep <;> simp [hc]

lemma joinChar_splitOnChar (sep : Char) (l : List Char) :
    joinChar sep (splitOnChar sep l) = l := by
  induction l with
  | nil => rfl
  | cons c cs ih =>
    simp only [splitOnChar]
    cases h : splitOnChar sep cs with
    | nil => exact absurd h (splitOnChar_ne_nil sep cs)
    | cons w ws =>
      rw [h] at ih
      by_cases hc : c = sep
      · subst hc
        simp only [if_pos rfl, joinChar]
        exact congrArg (c :: ·) ih
      · simp only [if_neg hc]
        cases ws with
        | nil =>
          simp only [joinChar] at ih ⊢
          exact congrArg (c :: ·) ih
        | cons w2 ws2 =>
          simp only [joinChar] at ih ⊢
          rw [← ih]
          rfl

lemma cutListAux_le (tok : String → Nat) (budget : Nat) :
    ∀ (fuel : Nat) (l : List Record), l.length ≤ fuel →
      tok (dumpRecords (cutListAux tok budget fuel l)) ≤
        max budget (tok (dumpRecords [])) := by
  intro fuel
  induction fuel with
  | zero =>
    intro l hl
    have hnil : l = [] := List.length_eq_zero.mp (Nat.le_zero.mp hl)
    subst hnil
    exact le_max_right _ _
  | succ n ih =>
    intro l hl
    simp only [cutListAux]
    split
    · exact le_trans (by assumption) (le_max_left _ _)
    · apply ih
      rw [List.length_dropLast]
      omega


lemma hupdate_ne (h : Heap) (i : Nat) (r : Record) (j : Nat) (hj : j ≠ i) :
    hupdate h i r j = h j := by
  simp [hupdate, hj]

lemma truncAfterSample_ok_bound (cfg : QueryToolCfg) (tok : String → Nat) (fuel : Nat)
    (l : List Record) (out : String) (emerg : Bool)
    (h : truncAfterSample cfg tok fuel l = .ok out emerg) :
    (emerg = false → tok out ≤ cfg.resultMaxToken) ∧
      tok out ≤ max cfg.resultMaxToken (tok (dumpRecords [])) := by
  unfold truncAfterSample at h
  split at h
  · split at h
    · exact absurd h (by simp)
    · exact absurd h (by simp)
    · split at h
      · injection h with h1 h2
        subst h1
        constructor
        · intro he
          subst h2
          exact absurd he (by simp)
        · exact cutListAux_le tok cfg.resultMaxToken _ _ le_rfl
      · injection h with h1 h2
        subst h1
        have hle : tok (dumpRecords _) ≤ cfg.resultMaxToken := Nat.le_of_not_lt (by assumption)
        exact ⟨fun _ => hle, le_trans hle (le_max_left _ _)⟩
  · injection h with h1 h2
    subst h1
    have hle : tok (dumpRecords l) ≤ cfg.resultMaxToken := Nat.le_of_not_lt (by assumption)
    exact ⟨fun _ => hle, le_trans hle (le_max_left _ _)⟩

lemma truncAfterSample_ok_shape (cfg : QueryToolCfg) (tok : String → Nat) (fuel : Nat)
    (l : List Record) (out : String) (emerg : Bool)
    (h : truncAfterSample cfg tok fuel l = .ok out emerg) :
    ∃ recs : List Record, out = dumpRecords recs := by
  unfold truncAfterSample at h
  split at h
  · split at h
    · exact absurd h (by simp)
    · exact absurd h (by simp)
    · split at h
      · injection h with h1 h2
        exact ⟨_, h1.symm⟩
      · injection h with h1 h2
        exact ⟨_, h1.symm⟩
  · injection h with h1 h2
    exact ⟨l, h1.symm⟩

lemma shrinkPass_fields (tok : String → Nat) (ov : Nat) (r r' : Record) (cl : Bool)
    (h : shrinkPass tok ov r = some (r', cl)) :
    r' = r.map (fun f =>
      (f.1, (cutField (ov * tok f.2 / ((r.map (fun g => tok g.2)).sum)) (tok f.2) f.2).1)) := by
  unfold shrinkPass at h
  split at h
  · exact absurd h (by simp)
  · rw [Option.some.injEq, Prod.mk.injEq] at h
    rw [← h.1, List.map_map]
    rfl

lemma cutField_cases (co kt : Nat) (v : String) :
    ((cutField co kt v).1 = v) ∨
    (5 < (splitOnChar ' ' v.data).length ∧
      ∃ m, 1 ≤ m ∧ m + 3 ≤ (splitOnChar ' ' v.data).length ∧
        (cutField co kt v).1 =
          String.mk (joinChar ' ' ((splitOnChar ' ' v.data).take
            ((splitOnChar ' ' v.data).length - m)) ++ ['.', '.', '.'])) := by
  unfold cutField
  by_cases h1 : 1 ≤ min ((splitOnChar ' ' v.data).length * co / kt)
      ((splitOnChar ' ' v.data).length - 3) ∧ 10 < (splitOnChar ' ' v.data).length
  · right
    refine ⟨by omega, min ((splitOnChar ' ' v.data).length * co / kt)
      ((splitOnChar ' ' v.data).length - 3), h1.1, ?_, ?_⟩
    · have hmin := min_le_right ((splitOnChar ' ' v.data).length * co / kt)
        ((splitOnChar ' ' v.data).length - 3)
      omega
    · rw [if_pos h1]
  · by_cases h2 : 1 ≤ min ((splitOnChar ' ' v.data).length * co / kt)
        ((splitOnChar ' ' v.data).length - 3) ∧ 5 < (splitOnChar ' ' v.data).length
    · right
      refine ⟨h2.2, 1, le_rfl, by omega, ?_⟩
      rw [if_neg h1, if_pos h2, List.dropLast_eq_take]
    · left
      rw [if_neg h1, if_neg h2]
      show String.mk (joinChar ' ' (splitOnChar ' ' v.data)) = v
      rw [joinChar_splitOnChar]

/-- C3: the record-count cap keeps at most `result_max_token / 5` records
(the `_max_record_num` of the constructor): when the executed result has
more, it is replaced by a sample of exactly that many records drawn without
replacement — for any sampler obeying the `random.sample` contract — and the
`_any_cut` flag is set; otherwise the list passes through this step
unchanged. -/
theorem c3_record_cap (cfg : QueryToolCfg) (sampler : List Record → Nat → List Record)
    (res : List Record)
    (hlen : ∀ (l : List Record) (k : Nat), k ≤ l.length → (sampler l k).length = k)
    (hsub : ∀ (l : List Record) (k : Nat), k ≤ l.length → (sampler l k).Subperm l) :
    (sampleStep sampler cfg.maxRecordNum res).1.length ≤ cfg.resultMaxToken / 5 ∧
    (res.length > cfg.resultMaxToken / 5 →
      (sampleStep sampler cfg.maxRecordNum res).1.length = cfg.resultMaxToken / 5 ∧
      (sampleStep sampler cfg.maxRecordNum res).1.Subperm res ∧
      (sampleStep sampler cfg.maxRecordNum res).2 = true) ∧
    (res.length ≤ cfg.resultMaxToken / 5 →
      sampleStep sampler cfg.maxRecordNum res = (res, false)) := by
  have hm : cfg.maxRecordNum = cfg.resultMaxToken / 5 := rfl
  by_cases hgt : res.length > cfg.resultMaxToken / 5
  · have hk : cfg.resultMaxToken / 5 ≤ res.length := le_of_lt hgt
    have hstep : sampleStep sampler cfg.maxRecordNum res =
        (sampler res (cfg.resultMaxToken / 5), true) := by
      unfold sampleStep
      rw [hm, if_pos hgt]
    rw [hstep]
    exact ⟨le_of_eq (hlen res _ hk), fun _ => ⟨hlen res _ hk, hsub res _ hk, rfl⟩,
      fun hle => absurd hgt (not_lt.mpr hle)⟩
  · have hstep : sampleStep sampler cfg.maxRecordNum res = (res, false) := by
      unfold sampleStep
      rw [hm, if_neg hgt]
    rw [hstep]
    exact ⟨not_lt.mp hgt, fun hgt' => absurd hgt' hgt, fun _ => rfl⟩

/-- Witness for C3 at a concrete over-cap instance: three records against
budget 10 (cap 2) are sampled down to exactly two, a subpermutation of the
input, with the flag set. -/
theorem c3_record_cap_witness :
    (sampleStep takeSampler cfgEx3.maxRecordNum resEx3).1.length = cfgEx3.resultMaxToken / 5 ∧
    (sampleStep takeSampler cfgEx3.maxRecordNum resEx3).1.Subperm resEx3 ∧
    (sampleStep takeSampler cfgEx3.maxRecordNum resEx3).2 = true :=
  (c3_record_cap cfgEx3 takeSampler resEx3
    (fun l k h => by simp [takeSampler, List.length_take, Nat.min_eq_left h])
    (fun l k _ => (List.take_sublist k l).subperm)).2.1 (by decide)

/-- C5 (counterexample): with the length token counter and per-record limit
18, one pass over `rEx` with overflow 24 cuts the first field (from twelve
words down to `"w w w..."`) but not the one-word last field, so the pass
leaves `_cut_last = False` and the loop stops — even though a field was cut
in this pass and the recomputed overflow (27 - 18 = 9) is still positive.
This refutes "terminates early only when no field in the record was eligible
for cutting in the current pass". -/
theorem c5_counterexample :
    shrinkPass tokLen 24 rEx = some (rEx', false) ∧
    rEx'.head? ≠ rEx.head? ∧
    shrinkLoop tokLen 18 5 rEx = .ok rEx' ∧
    18 < tokLen (dumpRecord rEx') :=
  ⟨rfl, by decide, rfl, by decide⟩

/-- C5 (amended): the loop terminates early (returns with the overflow still
positive) exactly because some pass reported `_cut_last = False`, i.e. the
**last** field iterated in that pass was not cut; earlier fields may well
have been cut in the very same pass (see the counterexample). -/
theorem c5_early_stop_last_field (tok : String → Nat) (limit : Nat) :
    ∀ (fuel : Nat) (r r' : Record),
      shrinkLoop tok limit fuel r = .ok r' →
      limit < tok (dumpRecord r') →
      ∃ r₀ ov₀, 0 < ov₀ ∧ shrinkPass tok ov₀ r₀ = some (r', false) := by
  intro fuel
  induction fuel with
  | zero =>
    intro r r' h hlt
    simp only [shrinkLoop] at h
    split at h
    · injection h with h1
      subst h1
      exact absurd hlt (not_lt.mpr (by assumption))
    · exact absurd h (by simp)
  | succ n ih =>
    intro r r' h hlt
    simp only [shrinkLoop] at h
    split at h
    · injection h with h1
      subst h1
      exact absurd hlt (not_lt.mpr (Nat.le_of_sub_eq_zero (by assumption)))
    · cases hp : shrinkPass tok (tok (dumpRecord r) - limit) r with
      | none =>
        rw [hp] at h
        exact absurd h (by simp)
      | some p =>
        obtain ⟨r'', c⟩ := p
        rw [hp] at h
        cases c with
        | true =>
          simp only [if_true] at h
          exact ih r'' r' h hlt
        | false =>
          simp only [if_false] at h
          injection h with h1
          subst h1
          exact ⟨r, tok (dumpRecord r) - limit, Nat.pos_of_ne_zero (by assumption), hp⟩

/-- Witness for C5's amended theorem at the counterexample instance. -/
theorem c5_early_stop_witness :
    ∃ (r₀ : Record) (ov₀ : Nat), 0 < ov₀ ∧ shrinkPass tokLen ov₀ r₀ = some (rEx', false) :=
  c5_early_stop_last_field tokLen 18 5 rEx rEx' rfl (by decide)

/-- C6 (code-bug exhibit): on a record with no fields whose serialized form
`"{}"` exceeds the per-record limit, the shrink loop never terminates:
`_cut_last` is initialized `True`, a pass over an empty field set never
reassigns it, and the overflow never changes.  Under the length counter with
limit 0 the loop is still running after any number of passes — contradicting
the claimed termination within total-word-count many passes (here 0). -/
theorem c6_empty_record_loops_forever (fuel : Nat) :
    shrinkLoop tokLen 0 fuel ([] : Record) = .spin := by
  induction fuel with
  | zero => rfl
  | succ n ih =>
    have hstep : shrinkLoop tokLen 0 (n + 1) ([] : Record) =
        shrinkLoop tokLen 0 n ([] : Record) := rfl
    rw [hstep, ih]

/-- C7: in every pass of the shrink loop, each field keeps its key, and its
text either stays exactly as it was (in particular, no ellipsis is appended)
or — possible only when the field has more than 5 words — loses at least one
word from the end, keeps at least 3 words, and has the ellipsis marker
appended to the shortened text. -/
theorem c7_field_cut_policy (tok : String → Nat) (ov : Nat) (r r' : Record) (cl : Bool)
    (h : shrinkPass tok ov r = some (r', cl)) :
    r'.length = r.length ∧
    ∀ (i : Nat) (hi : i < r.length) (hi' : i < r'.length),
      (r'.get ⟨i, hi'⟩).1 = (r.get ⟨i, hi⟩).1 ∧
      ((r'.get ⟨i, hi'⟩).2 = (r.get ⟨i, hi⟩).2 ∨
        (5 < (splitOnChar ' ' (r.get ⟨i, hi⟩).2.data).length ∧
          ∃ m, 1 ≤ m ∧ m + 3 ≤ (splitOnChar ' ' (r.get ⟨i, hi⟩).2.data).length ∧
            (r'.get ⟨i, hi'⟩).2 =
              String.mk (joinChar ' '
                ((splitOnChar ' ' (r.get ⟨i, hi⟩).2.data).take
                  ((splitOnChar ' ' (r.get ⟨i, hi⟩).2.data).length - m)) ++
                ['.', '.', '.']))) := by
  have hr' := shrinkPass_fields tok ov r r' cl h
  subst hr'
  refine ⟨List.length_map _ _, ?_⟩
  intro i hi hi'
  constructor
  · simp [List.get_eq_getElem, List.getElem_map]
  · have hc := cutField_cases (ov * tok (r.get ⟨i, hi⟩).2 /
      ((r.map (fun g => tok g.2)).sum)) (tok (r.get ⟨i, hi⟩).2) (r.get ⟨i, hi⟩).2
    simpa [List.get_eq_getElem, List.getElem_map] using hc

/-- Witness for C7 at the counterexample pass: the hypothesis is discharged
by evaluation. -/
theorem c7_field_cut_policy_witness : rEx'.length = rEx.length :=
  (c7_field_cut_policy tokLen 24 rEx rEx' false rfl).1

/-- C4: whenever the try block of `run` produces an output, its token count
is at most the configured budget unless the emergency `cut_list` fallback
ran — and even then it is bounded by the hard maximum
`max budget (tok "[]")` implied by the budget (the modelled fallback drops
trailing records until the serialization fits, bottoming out at the
serialized empty list). -/
theorem c4_token_ceiling (cfg : QueryToolCfg) (tok : String → Nat)
    (sampler : List Record → Nat → List Record) (fuel : Nat) (q : String)
    (out : String) (emerg : Bool)
    (h : execPhase cfg tok sampler fuel q = .ok out emerg) :
    (emerg = false → tok out ≤ cfg.resultMaxToken) ∧
    tok out ≤ max cfg.resultMaxToken (tok (dumpRecords [])) := by
  unfold execPhase at h
  cases hq : cfg.corpus.execQuery q with
  | none =>
    rw [hq] at h
    exact absurd h (by simp)
  | some res =>
    rw [hq] at h
    exact truncAfterSample_ok_bound cfg tok fuel _ out emerg h

/-- Witness for C4 at a concrete in-budget run: three small records against
budget 512 with the length counter. -/
theorem c4_token_ceiling_witness :
    (false = false → tokLen (dumpRecords resEx3) ≤ cfgBig.resultMaxToken) ∧
    tokLen (dumpRecords resEx3) ≤ max cfgBig.resultMaxToken (tokLen (dumpRecords [])) :=
  c4_token_ceiling cfgBig tokLen takeSampler 1 queryNoW (dumpRecords resEx3) false rfl

/-- C1 (counterexample): a failing rewrite makes `run` return the tool name
followed by the broken-tool text, while a failing execution makes it return
the placeholder `"can not seach related information."` — two different
strings, refuting "returns the same generic failure message". -/
theorem c1_counterexample :
    run cfgFail tokLen takeSampler 3 queryW = some (cfgFail.name ++ brokenMsg) ∧
    run cfgFail tokLen takeSampler 3 queryNoW = some placeholderMsg ∧
    some (cfgFail.name ++ brokenMsg) ≠ some placeholderMsg :=
  ⟨rfl, rfl, by decide⟩

/-- C1 (amended): every exception in steps 2-4 is caught and `run` returns
the still-unassigned placeholder `output` value — which is, however, not the
message returned when the rewrite step fails (the tool name followed by the
broken-tool text; that text otherwise only reaches the internal log).  In
both failure modes no partial result is surfaced. -/
theorem c1_exception_policy (cfg : QueryToolCfg) (tok : String → Nat)
    (sampler : List Record → Nat → List Record) (fuel : Nat) (q : String) :
    (rewrite_sql cfg.corpus q = none →
      run cfg tok sampler fuel q = some (cfg.name ++ brokenMsg)) ∧
    (∀ q', rewrite_sql cfg.corpus q = some q' →
      execPhase cfg tok sampler fuel q' = .exc →
      run cfg tok sampler fuel q = some placeholderMsg) ∧
    cfg.name ++ brokenMsg ≠ placeholderMsg := by
  refine ⟨?_, ?_, ?_⟩
  · intro hr
    unfold run
    rw [hr]
  · intro q' hr hex
    unfold run
    rw [hr]
    show (match execPhase cfg tok sampler fuel q' with
      | PhaseRes.exc => some placeholderMsg
      | PhaseRes.spin => none
      | PhaseRes.ok out _ => some out) = some placeholderMsg
    rw [hex]
  · intro heq
    have hd : cfg.name.data ++ brokenMsg.data = placeholderMsg.data := by
      rw [← data_append, heq]
    have hlast := congrArg List.getLast? hd
    rw [List.getLast?_append] at hlast
    rw [show brokenMsg.data.getLast? = some (Char.ofNat 10) from rfl] at hlast
    rw [show placeholderMsg.data.getLast? = some ('.') from rfl] at hlast
    simp only [Option.or] at hlast
    exact absurd hlast (by decide)

/-- Witness for C1's amended theorem: both failure branches hit at concrete
inputs over `cfgFail`. -/
theorem c1_exception_policy_witness :
    run cfgFail tokLen takeSampler 3 queryW = some (cfgFail.name ++ brokenMsg) ∧
    run cfgFail tokLen takeSampler 3 queryNoW = some placeholderMsg :=
  ⟨(c1_exception_policy cfgFail tokLen takeSampler 3 queryW).1 rfl,
    (c1_exception_policy cfgFail tokLen takeSampler 3 queryNoW).2.1 queryNoW rfl rfl⟩

/-- C2 (counterexample): a successful run on which sampling occurred (three
records against cap two) returns exactly the serialized record list and not
the claimed composition carrying a sampling notice: the notice is only ever
appended to the internal `info` log (and only in the over-budget branch),
never to the returned string. -/
theorem c2_counterexample :
    run cfgEx3 tokOne takeSampler 3 queryNoW = some (dumpRecords (resEx3.take 2)) ∧
    resEx3.length > cfgEx3.maxRecordNum ∧
    run cfgEx3 tokOne takeSampler 3 queryNoW ≠
      some (claimedComposedOutput cfgEx3.name (dumpRecords (resEx3.take 2))) :=
  ⟨rfl, by decide, by decide⟩

/-- C2 (amended): on every successful execution the string returned by `run`
is exactly the serialized record list produced by the truncation pipeline — a
`json.dumps` of some record list with no diagnostic prefix; the rewrite and
sampling notices only reach the internal log. -/
theorem c2_output_is_bare_serialization (cfg : QueryToolCfg) (tok : String → Nat)
    (sampler : List Record → Nat → List Record) (fuel : Nat) (q q' : String)
    (out : String) (emerg : Bool)
    (hrw : rewrite_sql cfg.corpus q = some q')
    (hph : execPhase cfg tok sampler fuel q' = .ok out emerg) :
    run cfg tok sampler fuel q = some out ∧
      ∃ recs : List Record, out = dumpRecords recs := by
  constructor
  · unfold run
    rw [hrw]
    show (match execPhase cfg tok sampler fuel q' with
      | PhaseRes.exc => some placeholderMsg
      | PhaseRes.spin => none
      | PhaseRes.ok o _ => some o) = some out
    rw [hph]
  · unfold execPhase at hph
    cases hq : cfg.corpus.execQuery q' with
    | none =>
      rw [hq] at hph
      exact absurd hph (by simp)
    | some res =>
      rw [hq] at hph
      exact truncAfterSample_ok_shape cfg tok fuel _ out emerg hph

/-- Witness for C2's amended theorem at a concrete successful run. -/
theorem c2_output_witness :
    run cfgEx3 tokOne takeSampler 3 queryNoW = some (dumpRecords (resEx3.take 2)) ∧
    ∃ recs : List Record, dumpRecords (resEx3.take 2) = dumpRecords recs :=
  c2_output_is_bare_serialization cfgEx3 tokOne takeSampler 3 queryNoW queryNoW
    (dumpRecords (resEx3.take 2)) false rfl rfl

/-- C9 (counterexample): the random source is not injectable through the
constructor: with identical constructor arguments (`cfgEx3`), token counter,
fuel and query, two ambient random states — modelled by two samplers, both
legal outcomes of `random.sample` — make `run` return different strings, so
no constructor-held state determines the sample. -/
theorem c9_counterexample :
    run cfgEx3 tokOne takeSampler 3 queryNoW ≠ run cfgEx3 tokOne dropSampler 3 queryNoW := by
  decide

/-- C9 (amended): sampling is deterministic only once the ambient random
source is fixed: when the result set exceeds the cap and the sampled set fits
the budget, `run` returns exactly the serialization of
`sampler res (result_max_token / 5)`, where `sampler` stands for the
module-level `random.sample` — an ambient import, not a constructor
parameter of the tool. -/
theorem c9_sampler_is_ambient (cfg : QueryToolCfg) (tok : String → Nat)
    (sampler : List Record → Nat → List Record) (fuel : Nat) (q q' : String)
    (res : List Record)
    (hrw : rewrite_sql cfg.corpus q = some q')
    (hexec : cfg.corpus.execQuery q' = some res)
    (hover : res.length > cfg.maxRecordNum)
    (hfit : tok (dumpRecords (sampler res cfg.maxRecordNum)) ≤ cfg.resultMaxToken) :
    run cfg tok sampler fuel q = some (dumpRecords (sampler res cfg.maxRecordNum)) := by
  have h1 : (sampleStep sampler cfg.maxRecordNum res).1 = sampler res cfg.maxRecordNum := by
    unfold sampleStep
    rw [if_pos hover]
  have h2 : truncAfterSample cfg tok fuel (sampler res cfg.maxRecordNum) =
      .ok (dumpRecords (sampler res cfg.maxRecordNum)) false := by
    unfold truncAfterSample
    rw [if_neg (not_lt.mpr hfit)]
  unfold run execPhase
  rw [hrw]
  show (match (match cfg.corpus.execQuery q' with
      | none => PhaseRes.exc
      | some res =>
        truncAfterSample cfg tok fuel (sampleStep sampler cfg.maxRecordNum res).1) with
    | PhaseRes.exc => some placeholderMsg
    | PhaseRes.spin => none
    | PhaseRes.ok o _ => some o) = some (dumpRecords (sampler res cfg.maxRecordNum))
  rw [hexec]
  show (match truncAfterSample cfg tok fuel (sampleStep sampler cfg.maxRecordNum res).1 with
    | PhaseRes.exc => some placeholderMsg
    | PhaseRes.spin => none
    | PhaseRes.ok o _ => some o) = some (dumpRecords (sampler res cfg.maxRecordNum))
  rw [h1, h2]

/-- Witness for C9's amended theorem at the concrete sampled run. -/
theorem c9_sampler_witness :
    run cfgEx3 tokOne takeSampler 7 queryNoW =
      some (dumpRecords (takeSampler resEx3 cfgEx3.maxRecordNum)) :=
  c9_sampler_is_ambient cfgEx3 tokOne takeSampler 7 queryNoW queryNoW resEx3 rfl rfl
    (by decide) (by decide)

/-- C10: the shrink phase never mutates the executed records: every write
goes to a fresh cell allocated by `deepcopy(record)`, so every heap cell
below the allocation frontier `next` — in particular every input record — is
unchanged when the phase completes. -/
theorem c10_no_mutation (tok : String → Nat) (limit fuel : Nat) :
    ∀ (ids : List Nat) (h : Heap) (next : Nat) (h' : Heap) (n' : Nat) (outs : List Nat),
      shrinkAllStore tok limit fuel h next ids = some (h', n', outs) →
      ∀ j, j < next → h' j = h j := by
  intro ids
  induction ids with
  | nil =>
    intro h next h' n' outs hs j hj
    simp only [shrinkAllStore, Option.some.injEq, Prod.mk.injEq] at hs
    rw [← hs.1]
  | cons i is ih =>
    intro h next h' n' outs hs j hj
    simp only [shrinkAllStore] at hs
    cases hl : shrinkLoop tok limit fuel (h i) with
    | ok r' =>
      rw [hl] at hs
      simp only at hs
      cases hrec : shrinkAllStore tok limit fuel (hupdate h next r') (next + 1) is with
      | none =>
        rw [hrec] at hs
        exact absurd hs (by simp)
      | some p =>
        rw [hrec] at hs
        obtain ⟨h'', n'', outs'⟩ := p
        simp only [Option.some.injEq, Prod.mk.injEq] at hs
        obtain ⟨hh, _, _⟩ := hs
        subst hh
        have hrest := ih (hupdate h next r') (next + 1) h'' n'' outs' hrec j
          (Nat.lt_succ_of_lt hj)
        rw [hrest]
        exact hupdate_ne h next r' j (Nat.ne_of_lt hj)
    | exc =>
      rw [hl] at hs
      exact absurd hs (by simp)
    | spin =>
      rw [hl] at hs
      exact absurd hs (by simp)

/-- Witness for C10 at a concrete one-record heap: cell 0 is unchanged after
the phase completed into the fresh cell 1. -/
theorem c10_no_mutation_witness :
    hupdate heapEx 1 (heapEx 0) 0 = heapEx 0 :=
  c10_no_mutation tokOne 5 1 [0] heapEx 1 (hupdate heapEx 1 (heapEx 0)) 2 [1] rfl 0
    (by decide)

/-- C8: the grounding scenario — for any corpus named `items` that does not
know a column `colr` but does know `color` (with a categorical domain in the
fuzzy engine), and whose fuzzy matcher maps `colr` to `color` over the column
domain and `cofee` to `coffee` over the `color` domain, the rewriter turns
`SELECT * FROM unknown_table WHERE colr LIKE '%cofee%'` into exactly
`SELECT * FROM items WHERE color LIKE '%coffee%'`. -/
theorem c8_rewrite_scenario (corpus : Corpus)
    (hname : corpus.name = "items")
    (hcolr : corpus.columnMeaningKeys.contains "colr" = false)
    (hcolor : corpus.columnMeaningKeys.contains "color" = true)
    (hfcol : corpus.fuzzyMatch "colr" ("sql_cols") = some ("color"))
    (heng : corpus.fuzzyEngineKeys.contains "color" = true)
    (hfval : corpus.fuzzyMatch "cofee" ("color") = some ("coffee")) :
    rewrite_sql corpus query8 = some target8 := by
  obtain ⟨name, cols, cats, eng, fz, exq⟩ := corpus
  dsimp only at hname hcolr hcolor hfcol heng hfval
  subst hname
  have e3 : buildColDict fz cols ["colr"] [] = some [("colr", "color")] := by
    simp only [buildColDict, hcolr, Bool.false_eq_true, if_false, hfcol]
    rfl
  have e6 : buildValDict fz eng [("color", "cofee")] [] = some [("%cofee%", "%coffee%")] := by
    simp only [buildValDict, heng, if_true, hfval]
    rfl
  show (match buildColDict fz cols
      (extract_columns_from_where (applyFromSub ("items") query8)) [] with
    | none => none
    | some d =>
      match buildValDict fz eng (findLikePatterns (applyReplaces d
          (applyFromSub ("items") query8))) [] with
      | none => none
      | some d2 => some (applyReplaces d2 (applyReplaces d
          (applyFromSub ("items") query8)))) = some target8
  rw [show applyFromSub ("items") query8 = query8b from rfl]
  rw [show extract_columns_from_where query8b = ["colr"] from rfl]
  rw [e3]
  show (match buildValDict fz eng
      (findLikePatterns (applyReplaces [("colr", "color")] query8b)) [] with
    | none => none
    | some d2 =>
      some (applyReplaces d2 (applyReplaces [("colr", "color")] query8b))) = some target8
  rw [show applyReplaces [("colr", "color")] query8b = query8c from rfl]
  rw [show findLikePatterns query8c = [("color", "cofee")] from rfl]
  rw [e6]
  show some (applyReplaces [("%cofee%", "%coffee%")] query8c) = some target8
  rw [show applyReplaces [("%cofee%", "%coffee%")] query8c = target8 from rfl]

/-- Witness for C8: the scenario corpus `corpusEx8` satisfies every
hypothesis by evaluation. -/
theorem c8_rewrite_scenario_witness :
    rewrite_sql corpusEx8 query8 = some target8 :=
  c8_rewrite_scenario corpusEx8 rfl (by decide) (by decide) rfl (by decide) rfl
